import Mathlib

/-!
Verification of the core of a minimal dependency-free HTTP/1.1 file server
written in Rust (request parsing, multipart extraction, response
serialization, path-safety checks, filename validation and the error
taxonomy).  The Rust code is shallowly embedded: byte streams are modelled
as lists of characters, `&str`/`String` as `String`, `Vec<u8>` buffers as
`List Char`, `Path`/`PathBuf` as a structure holding an absoluteness flag
and a component list, the filesystem (needed by `canonicalize` and by
file-reading at serialization time) as explicit function records, and all
fallible operations as `Except AppError`.  Unicode case mapping is modelled
on the ASCII range, which covers every string the server compares against.
-/

deriving instance DecidableEq for Except

/-! ## Character and string utilities (modelling Rust `str` operations) -/

/-- Model of Rust `char::to_uppercase` restricted to the ASCII range. -/
def asciiUpper (c : Char) : Char :=
  if 97 ≤ c.toNat ∧ c.toNat ≤ 122 then Char.ofNat (c.toNat - 32) else c

/-- Model of Rust `char::to_lowercase` restricted to the ASCII range. -/
def asciiLower (c : Char) : Char :=
  if 65 ≤ c.toNat ∧ c.toNat ≤ 90 then Char.ofNat (c.toNat + 32) else c

/-- Model of Rust `str::to_uppercase` (ASCII range). -/
def asciiUppercase (s : String) : String := String.mk (s.data.map asciiUpper)

/-- ASCII whitespace, as recognised by Rust `char::is_whitespace`. -/
def rsIsWs (c : Char) : Bool :=
  c = ' ' || c = '\t' || c = '\n' || c = '\r' || c.toNat = 11 || c.toNat = 12

def trimStartList (l : List Char) : List Char := l.dropWhile rsIsWs

def trimEndList (l : List Char) : List Char := (l.reverse.dropWhile rsIsWs).reverse

/-- Model of Rust `str::trim` on character lists. -/
def trimList (l : List Char) : List Char := trimEndList (trimStartList l)

def rsTrim (s : String) : String := String.mk (trimList s.data)

def splitCharAux (sep : Char) : List Char → List Char → List (List Char)
  | [], acc => [acc.reverse]
  | c :: t, acc =>
    if c = sep then acc.reverse :: splitCharAux sep t []
    else splitCharAux sep t (c :: acc)

/-- Model of Rust `str::split(sep)` for a single-character separator
(keeps empty pieces, exactly like the Rust iterator). -/
def splitOnChar (sep : Char) (l : List Char) : List (List Char) := splitCharAux sep l []

def splitWsAux : List Char → List Char → List (List Char)
  | [], acc => if acc.isEmpty then [] else [acc.reverse]
  | c :: t, acc =>
    if rsIsWs c then
      (if acc.isEmpty then splitWsAux t [] else acc.reverse :: splitWsAux t [])
    else splitWsAux t (c :: acc)

/-- Model of Rust `str::split_whitespace` (drops empty pieces). -/
def splitWhitespace (s : String) : List String := (splitWsAux s.data []).map String.mk

/-- Model of Rust `str::split_once` for a single-character pattern. -/
def splitOnceChar (sep : Char) : List Char → Option (List Char × List Char)
  | [] => none
  | c :: t =>
    if c = sep then some ([], t)
    else (splitOnceChar sep t).map (fun r => (c :: r.1, r.2))

/-- Model of Rust `str::rsplit_once` for a single-character pattern. -/
def rsplitOnceChar (sep : Char) (l : List Char) : Option (List Char × List Char) :=
  (splitOnceChar sep l.reverse).map (fun r => (r.2.reverse, r.1.reverse))

/-- Model of Rust `str::split_once` for a string pattern. -/
def splitOnceList (pat : List Char) : List Char → Option (List Char × List Char)
  | [] => if pat.isEmpty then some ([], []) else none
  | c :: t =>
    if pat.isPrefixOf (c :: t) then some ([], (c :: t).drop pat.length)
    else (splitOnceList pat t).map (fun r => (c :: r.1, r.2))

def splitOnceStr (s pat : String) : Option (String × String) :=
  (splitOnceList pat.data s.data).map (fun r => (String.mk r.1, String.mk r.2))

/-- Model of Rust `str::starts_with` (list-based, so it reduces). -/
def strStartsWith (s pre : String) : Bool := pre.data.isPrefixOf s.data

/-- Model of Rust `str::strip_prefix`. -/
def stripPre (pat l : List Char) : Option (List Char) :=
  if pat.isPrefixOf l then some (l.drop pat.length) else none

/-- Model of Rust `str::strip_suffix`. -/
def stripSuf (pat l : List Char) : Option (List Char) :=
  (stripPre pat.reverse l.reverse).map List.reverse

/-- Model of Rust `str::trim_matches(c)`. -/
def trimMatchesChar (c : Char) (l : List Char) : List Char :=
  ((l.dropWhile (· = c)).reverse.dropWhile (· = c)).reverse

/-- Model of Rust `str::trim_start_matches(c)`. -/
def trimStartMatchesChar (s : String) (c : Char) : String :=
  String.mk (s.data.dropWhile (· = c))

def trimStartMatchesAux (pat : List Char) : Nat → List Char → List Char
  | 0, l => l
  | fuel + 1, l =>
    if !pat.isEmpty && pat.isPrefixOf l then trimStartMatchesAux pat fuel (l.drop pat.length)
    else l

/-- Model of Rust `str::trim_start_matches(pat)` for a string pattern:
repeatedly removes the pattern from the front. -/
def trimStartMatchesStr (s pat : String) : String :=
  String.mk (trimStartMatchesAux pat.data s.data.length s.data)

/-- Model of Rust `str::parse::<usize>`: optional leading `+`, at least one
digit, all digits, and the value must fit in a 64-bit word. -/
def parseUsize (s : String) : Option Nat :=
  let ds := match s.data with
    | '+' :: rest => rest
    | l => l
  if ds.isEmpty then none
  else if ds.all Char.isDigit then
    let v := ds.foldl (fun acc c => acc * 10 + (c.toNat - 48)) 0
    if v < 18446744073709551616 then some v else none
  else none

def decDigitChar (n : Nat) : Char :=
  if n = 0 then '0' else if n = 1 then '1' else if n = 2 then '2' else if n = 3 then '3'
  else if n = 4 then '4' else if n = 5 then '5' else if n = 6 then '6' else if n = 7 then '7'
  else if n = 8 then '8' else '9'

def natReprLoop : Nat → Nat → List Char → List Char
  | 0, _, acc => acc
  | fuel + 1, n, acc =>
    if n / 10 = 0 then decDigitChar (n % 10) :: acc
    else natReprLoop fuel (n / 10) (decDigitChar (n % 10) :: acc)

/-- Decimal printer, modelling Rust's `Display` for unsigned integers. -/
def natRepr (n : Nat) : String := String.mk (natReprLoop (n + 1) n [])

/-! ## Paths (model of Rust `Path`/`PathBuf` on Unix, without symlinks) -/

/-- A parsed path: an absoluteness flag plus the component list, mirroring
`std::path::Components` (no `Prefix` components on Unix). `"."` and `".."`
appear as the literal components `"."` and `".."`. -/
structure RsPath where
  absolute : Bool
  components : List String
deriving DecidableEq, Repr

/-- Component normalization done by `Path::components()`: empty components
vanish, and `"."` components vanish except at the start of a relative path. -/
def parseComponents (absolute : Bool) (raw : List String) : List String :=
  let nonempty := raw.filter (fun c => c ≠ "")
  if absolute then nonempty.filter (fun c => c ≠ ".")
  else
    match nonempty with
    | [] => []
    | c :: rest => c :: rest.filter (fun x => x ≠ ".")

def parsePath (s : String) : RsPath :=
  let absolute := match s.data with
    | '/' :: _ => true
    | _ => false
  ⟨absolute, parseComponents absolute ((splitOnChar '/' s.data).map String.mk)⟩

/-- Model of `Path::join`: joining an absolute path replaces the base. -/
def RsPath.join (base p : RsPath) : RsPath :=
  if p.absolute then p else ⟨base.absolute, base.components ++ p.components⟩

/-- Model of `PathBuf::pop` (no change on a bare root or an empty path). -/
def RsPath.pop (p : RsPath) : RsPath := ⟨p.absolute, p.components.dropLast⟩

def RsPath.push (p : RsPath) (c : String) : RsPath := ⟨p.absolute, p.components ++ [c]⟩

/-- `RequestHandler::resolve_traversals`: pure lexical normalization —
`..` pops the last pushed component, `.` is skipped, everything else is
pushed (a leading root component makes the accumulator absolute). -/
def resolveTraversals (path : RsPath) : RsPath :=
  path.components.foldl
    (fun normalized comp =>
      if comp = ".." then RsPath.pop normalized
      else if comp = "." then normalized
      else RsPath.push normalized comp)
    ⟨path.absolute, []⟩

/-- Model of `Path::starts_with`: component-wise prefix, and the
absoluteness of both paths must agree. -/
def rsStartsWith (p base : RsPath) : Bool :=
  (p.absolute == base.absolute) && base.components.isPrefixOf p.components

/-- Model of `Path::file_name`: the last component, unless it is `..` or
`.` or the path has no components. -/
def fileName (p : RsPath) : Option String :=
  match p.components.getLast? with
  | none => none
  | some c => if c = ".." ∨ c = "." then none else some c

/-- Extension of a file name: the portion after the last `.`, or `none`
when there is no `.` or the only `.` starts the name (hidden file). -/
def extOfName (n : List Char) : Option String :=
  match rsplitOnceChar '.' n with
  | none => none
  | some (bef, aft) => if bef.isEmpty then none else some (String.mk aft)

/-- Model of `Path::extension`. -/
def extOf (p : RsPath) : Option String :=
  match fileName p with
  | none => none
  | some n => extOfName n.data

/-! ## Filesystem model and `canonicalize` -/

/-- The filesystem as seen by `Path::canonicalize`: the current working
directory (an absolute component list) and an existence predicate over
absolute component lists.  Symlinks are not modelled, so canonicalization
is stepwise lexical resolution in which every traversed path must exist
(the semantics of `realpath` on a symlink-free tree). -/
structure Filesystem where
  cwd : List String
  pathExists : List String → Bool

def canonStep (fs : Filesystem) : List String → List String → Option (List String)
  | cur, [] => some cur
  | cur, c :: rest =>
    if c = "." then canonStep fs cur rest
    else if c = ".." then canonStep fs cur.dropLast rest
    else if fs.pathExists (cur ++ [c]) then canonStep fs (cur ++ [c]) rest
    else none

/-- Model of `Path::canonicalize`: resolve against the working directory,
failing as soon as a traversed path does not exist. -/
def canonicalize (fs : Filesystem) (p : RsPath) : Option (List String) :=
  canonStep fs (if p.absolute then [] else fs.cwd) p.components

/-- Display form of a canonical (absolute) path. -/
def absDisplay (comps : List String) : String := "/" ++ String.intercalate "/" comps

/-- Display form of an arbitrary path (`Path::display`). -/
def rsDisplay (p : RsPath) : String :=
  (if p.absolute then "/" else "") ++ String.intercalate "/" p.components

/-! ## The error taxonomy (`AppError` from `common.rs`) -/

inductive AppError where
  | ioError (msg : String)
  | Invalid (msg : String)
  | NotFound (msg : String)
  | NotPermitted (msg : String)
  | Unknown (msg : String)
deriving DecidableEq, Repr

/-- The five kinds of the taxonomy, without their message payloads. -/
inductive ErrKind where
  | ioK
  | invalidK
  | notFoundK
  | notPermittedK
  | unknownK
deriving DecidableEq, Repr

def AppError.kind : AppError → ErrKind
  | .ioError _ => .ioK
  | .Invalid _ => .invalidK
  | .NotFound _ => .notFoundK
  | .NotPermitted _ => .notPermittedK
  | .Unknown _ => .unknownK

def errorKindOf {α : Type} : Except AppError α → Option ErrKind
  | .error e => some e.kind
  | .ok _ => none

/-! ## HTTP primitives (`http.rs`) -/

inductive HttpMethod where
  | Get
  | Post
  | Put
  | Patch
  | Delete
  | Head
  | Options
  | Trace
  | Connect
deriving DecidableEq, Repr

/-- `TryFrom<String> for HttpMethod`: uppercase the token and match it
against the closed method list; unknown tokens are `Invalid`. -/
def methodTryFrom (value : String) : Except AppError HttpMethod :=
  match asciiUppercase value with
  | "GET" => .ok .Get
  | "POST" => .ok .Post
  | "PUT" => .ok .Put
  | "PATCH" => .ok .Patch
  | "DELETE" => .ok .Delete
  | "HEAD" => .ok .Head
  | "OPTIONS" => .ok .Options
  | "TRACE" => .ok .Trace
  | "CONNECT" => .ok .Connect
  | _ => .error (.Invalid ("Unknown method: " ++ value))

/-- `BufferedFile`: an in-memory file (name plus content bytes). -/
structure BufferedFile where
  name : String
  content : List Char
deriving DecidableEq, Repr

def BufferedFile.display (f : BufferedFile) : String :=
  "Filename: " ++ f.name ++ "\nFile content: " ++ String.mk f.content

inductive RequestBody where
  | Multipart (file : BufferedFile)
  | Empty
deriving DecidableEq, Repr

def RequestBody.display : RequestBody → String
  | .Multipart f => f.display
  | .Empty => "Empty"

inductive ResponseBody where
  | File (path : String)
  | Text (text : String)
  | Empty
deriving DecidableEq, Repr

inductive HttpStatus where
  | Ok
  | SeeOther
  | Forbidden
  | NotFound
  | ServerError
deriving DecidableEq, Repr

def HttpStatus.getStatusCode : HttpStatus → Nat
  | .Ok => 200
  | .SeeOther => 303
  | .Forbidden => 403
  | .NotFound => 404
  | .ServerError => 500

def HttpStatus.getReasonPhrase : HttpStatus → String
  | .Ok => "OK"
  | .SeeOther => "SEE OTHER"
  | .Forbidden => "FORBIDDEN"
  | .NotFound => "NOT FOUND"
  | .ServerError => "SERVER ERROR"

/-- The header map.  Rust uses a `HashMap`; the model keeps an association
list whose `hInsert` replaces the value of an existing key in place. -/
abbrev Headers := List (String × String)

def hGet (m : Headers) (k : String) : Option String :=
  (m.find? (fun p => p.1 == k)).map (fun p => p.2)

def hInsert (m : Headers) (k v : String) : Headers :=
  if (m.find? (fun p => p.1 == k)).isSome then
    m.map (fun p => if p.1 == k then (k, v) else p)
  else m ++ [(k, v)]

def lowerFirst (w : List Char) : List Char :=
  match w with
  | [] => []
  | c :: rest => asciiLower c :: rest

def capitalizeFirst (w : List Char) : List Char :=
  match w with
  | [] => []
  | c :: rest => asciiUpper c :: rest

/-- `Request::to_header_case`: split on `-`, capitalize the first character
of each segment (leaving the rest of the segment unchanged), re-join. -/
def toHeaderCase (s : String) : String :=
  String.intercalate "-" ((splitOnChar '-' s.data).map (fun w => String.mk (capitalizeFirst w)))

/-- Two segment lists that agree except possibly in the case of each
segment's first character. -/
def segsAgree : List (List Char) → List (List Char) → Bool
  | [], [] => true
  | a :: moreA, b :: moreB => (lowerFirst a == lowerFirst b) && segsAgree moreA moreB
  | _, _ => false

/-- `Request::extract_headers`, over the list of raw header lines (each
line as produced by `read_line`, i.e. still carrying its terminator).
Reaching the end of input before the blank line behaves like `read_line`
returning an empty string: no colon, hence `Invalid`. -/
def extractHeaders : List String → Headers → Except AppError Headers
  | [], _ => .error (.Invalid "Error parsing headers")
  | line :: rest, headers =>
    if line = "\r\n" then .ok headers
    else
      match splitOnceStr line ":" with
      | none => .error (.Invalid "Error parsing headers")
      | some (key, value) =>
        extractHeaders rest (hInsert headers (toHeaderCase (rsTrim key)) (rsTrim value))

/-! ## Multipart extractor (`MultiPartFormExtractor`) -/

/-- `MultiPartFormExtractor::MAX_FILE_SIZE` (50 MiB). -/
def maxFileSize : Nat := 50 * 1024 * 1024

def splitn3 (l : List Char) : List (List Char) :=
  match splitOnceChar '\n' l with
  | none => [l]
  | some (a, r) =>
    match splitOnceChar '\n' r with
    | none => [a, r]
    | some (b, c) => [a, b, c]

/-- `MultiPartFormExtractor::extract`.  The pair's second component is the
state of the stream afterwards, so that "no byte was read" is expressible.
UTF-8 decoding is the identity in this model (streams are character lists). -/
def multipartExtract (contentType : String) (contentLength : Nat) (stream : List Char) :
    Except AppError BufferedFile × List Char :=
  if contentLength > maxFileSize then
    (.error (.Invalid "File size exceeds 50MB limit"), stream)
  else
    match splitOnceStr contentType "boundary=" with
    | none => (.error (.Invalid "Boundary missing in Content-Type header"), stream)
    | some (_, rawBoundary) =>
      let boundary := rsTrim rawBoundary
      if stream.length < contentLength then
        (.error (.Invalid "Failed to read form data"), stream.drop contentLength)
      else
        let formBody := stream.take contentLength
        let rest := stream.drop contentLength
        match stripPre ("--" ++ boundary).data (trimList formBody) with
        | none => (.error (.Invalid "Form body not surrounded with boundary"), rest)
        | some afterPre =>
          match stripSuf ("--" ++ boundary ++ "--").data afterPre with
          | none => (.error (.Invalid "Form body not surrounded with boundary"), rest)
          | some stripped =>
            let inner := trimList stripped
            match splitn3 inner with
            | [] => (.error (.Invalid "Invalid content disposition"), rest)
            | firstPart :: more =>
              match rsplitOnceChar ';' firstPart with
              | none => (.error (.Invalid "Invalid content disposition"), rest)
              | some (_, filenamePart) =>
                match splitOnceList ['='] filenamePart with
                | none => (.error (.Invalid "Invalid content disposition"), rest)
                | some (_, rawFilename) =>
                  let filename := String.mk (trimMatchesChar '"' (trimList rawFilename))
                  match more with
                  | [] => (.error (.Invalid "Content type missing from form body"), rest)
                  | _ :: more2 =>
                    match more2 with
                    | [] => (.error (.Invalid "file data missing from form body"), rest)
                    | dataPart :: _ => (.ok ⟨filename, trimList dataPart⟩, rest)

/-! ## Request body extraction (`Request::extract_body`) -/

def extractBodyDispatch (stream : List Char) (contentLength : Nat) (contentType : String) :
    Except AppError RequestBody :=
  if strStartsWith contentType "multipart/form-data" then
    match (multipartExtract contentType contentLength stream).1 with
    | .ok f => .ok (.Multipart f)
    | .error e => .error e
  else .error (.Invalid ("Unsupported content type: " ++ contentType))

def extractBodyAux (stream : List Char) (headers : Headers) (contentLength : Option Nat) :
    Except AppError RequestBody :=
  let contentTypeHeader := hGet headers "Content-Type"
  if contentLength = none ∨ contentLength = some 0 ∨ contentTypeHeader = none then .ok .Empty
  else
    match contentLength, contentTypeHeader with
    | some n, some t => extractBodyDispatch stream n t
    | _, _ => .ok .Empty

/-- `Request::extract_body`: the `Content-Length` header is parsed first
(a malformed value is `Invalid`), then the empty-body cases, then dispatch
on the content type. -/
def extractBody (stream : List Char) (headers : Headers) : Except AppError RequestBody :=
  match hGet headers "Content-Length" with
  | none => extractBodyAux stream headers none
  | some v =>
    match parseUsize v with
    | none => .error (.Invalid "Content-Length request header is not a number")
    | some n => extractBodyAux stream headers (some n)

/-- `Request::extract_request_line`: split on whitespace, take method,
path, version in that order (the method token is parsed before the
missing-path/missing-version checks can fire). -/
def extractRequestLine (requestLine : String) :
    Except AppError (HttpMethod × String × String) :=
  match splitWhitespace requestLine with
  | [] => .error (.Invalid "Could not find method")
  | [m] =>
    (match methodTryFrom m with
     | .error e => .error e
     | .ok _ => .error (.Invalid "Could not find path"))
  | [m, _] =>
    (match methodTryFrom m with
     | .error e => .error e
     | .ok _ => .error (.Invalid "Could not find http_version"))
  | m :: p :: v :: _ =>
    (match methodTryFrom m with
     | .error e => .error e
     | .ok meth => .ok (meth, p, v))

/-! ## Responses and serialization -/

structure Response where
  httpVersion : String
  status : HttpStatus
  headers : Headers
  body : ResponseBody
deriving DecidableEq, Repr

/-- `Response::builder()....build()`: defaults are status 200 and an empty
body; `header()` calls are collected in `headers`. -/
def buildResponse (status : Option HttpStatus) (headers : Headers) (body : Option ResponseBody) :
    Response :=
  ⟨"HTTP/1.1", status.getD .Ok, headers, body.getD .Empty⟩

/-- The on-disk file contents visible to response serialization:
`readFile p` is `some content` exactly when `p` exists, is a regular file
and is readable. -/
structure FileStore where
  readFile : String → Option (List Char)

/-- `TryFrom<&Path> for BufferedFile`: missing file (or directory, or
unopenable file) is `NotFound`; a path with no file name is `Invalid`. -/
def bufferedFileFromPath (store : FileStore) (path : String) : Except AppError BufferedFile :=
  match store.readFile path with
  | none => .error (.NotFound ("File does not exist: " ++ path))
  | some content =>
    match fileName (parsePath path) with
    | none => .error (.Invalid ("Invalid file name: " ++ path))
    | some n => .ok ⟨n, content⟩

/-- `TryFrom<ResponseBody> for Option<BufferedFile>`. -/
def responseBodyToFile (store : FileStore) : ResponseBody → Except AppError (Option BufferedFile)
  | .File path =>
    (match bufferedFileFromPath store path with
     | .ok f => .ok (some f)
     | .error e => .error e)
  | .Text t => .ok (some ⟨"response.html", t.data⟩)
  | .Empty => .ok none

/-- `Response::get_content_type`: fixed extension table. -/
def getContentType (filePath : String) : String :=
  match extOf (parsePath filePath) with
  | some "html" => "text/html; charset=UTF-8"
  | some "css" => "text/css"
  | some "js" => "application/javascript"
  | some "png" => "image/png"
  | some "jpg" => "image/jpeg"
  | some "jpeg" => "image/jpeg"
  | some "gif" => "image/gif"
  | some "pdf" => "application/pdf"
  | some "json" => "application/json"
  | some "txt" => "text/plain"
  | _ => "application/octet-stream"

/-- The header block of the wire output followed by `tail`: each entry
contributes the bytes of `name: value\r\n`, in map order. -/
def headersWire (hs : Headers) (tail : List Char) : List Char :=
  hs.foldr (fun p acc => p.1.data ++ (": ".data ++ (p.2.data ++ ("\r\n".data ++ acc)))) tail

/-- `Response::to_bytes`: status line, computed headers (`Content-Length`,
`Content-Type`, and `Content-Disposition` for non-HTML bodies override any
caller-set value), a blank line, then the body bytes. -/
def toBytes (store : FileStore) (r : Response) : Except AppError (List Char) :=
  let statusLine :=
    r.httpVersion ++ " " ++ natRepr r.status.getStatusCode ++ " " ++
      r.status.getReasonPhrase ++ "\r\n"
  match responseBodyToFile store r.body with
  | .error e => .error e
  | .ok optFile =>
    match optFile with
    | some f =>
      let contentType := getContentType f.name
      let hs := hInsert (hInsert r.headers "Content-Length" (natRepr f.content.length))
        "Content-Type" contentType
      let hs2 := if strStartsWith contentType "text/html" then hs
        else hInsert hs "Content-Disposition" ("inline; filename=\"" ++ f.name ++ "\"")
      .ok (statusLine.data ++ headersWire hs2 ("\r\n".data ++ f.content))
    | none =>
      let hs := hInsert r.headers "Content-Length" "0"
      .ok (statusLine.data ++ headersWire hs "\r\n".data)

/-- Wire-level body extraction: everything after the first blank line
(`\r\n\r\n`) of a serialized message, or `none` if there is none. -/
def afterBlankLine : List Char → Option (List Char)
  | [] => none
  | c :: t =>
    if c = '\r' ∧ t.take 3 = ['\n', '\r', '\n'] then some (t.drop 3)
    else afterBlankLine t

/-! ## Templates and handlers (`handlers.rs`) -/

/-- Modelled from the spec: the HTML templates are compiled into the binary
from a `templates/` directory that is not part of `src/`; the spec treats
them as opaque strings, so each is represented by a distinct placeholder. -/
def Templates.ACCESS_DENIED : String := "access-denied template"

/-- Modelled from the spec: opaque template string (see `Templates.ACCESS_DENIED`). -/
def Templates.BAD_REQUEST : String := "bad-request template"

/-- Modelled from the spec: opaque template string (see `Templates.ACCESS_DENIED`). -/
def Templates.FILE_NOT_FOUND : String := "file-not-found template"

/-- Modelled from the spec: opaque template string (see `Templates.ACCESS_DENIED`). -/
def Templates.PAGE_NOT_FOUND : String := "page-not-found template"

/-- Modelled from the spec: opaque template string (see `Templates.ACCESS_DENIED`). -/
def Templates.SERVER_ERROR : String := "server-error template"

/-- Modelled from the spec: opaque template string (see `Templates.ACCESS_DENIED`). -/
def Templates.UPLOAD : String := "upload template"

/-- The allowed-extension list of `RequestHandler::validate_filename`. -/
def allowedExtensions : List String := ["txt", "png", "jpg", "pdf"]

/-- `RequestHandler::validate_filename`: the base file name must exist (in
the model every string is valid UTF-8), be non-empty, and the path's
extension must be in the allow-list. -/
def validateFilename (path : String) : Except AppError Unit :=
  match fileName (parsePath path) with
  | none => .error (.Invalid ("Filename is not a valid UTF-8 file name: " ++ path))
  | some sanitizedFilename =>
    if sanitizedFilename = "" then .error (.Invalid ("Filename failed sanitization: " ++ path))
    else
      match extOf (parsePath path) with
      | some ext =>
        if allowedExtensions.contains ext then .ok ()
        else .error (.Invalid ("Filename has an unsupported extension: " ++ path))
      | none => .error (.Invalid ("Filename has an unsupported extension: " ++ path))

def uploadsRootPath : RsPath := parsePath "uploads"

/-- The argument preprocessing of `RequestHandler::view_file`: strip
leading `/` characters, then any `uploads/` prefixes. -/
def viewStripped (filename : String) : String :=
  trimStartMatchesStr (trimStartMatchesChar filename '/') "uploads/"

/-- The path `view_file` asks the filesystem to canonicalize. -/
def viewTarget (filename : String) : RsPath :=
  RsPath.join uploadsRootPath (parsePath (viewStripped filename))

/-- `RequestHandler::view_file`. -/
def viewFile (fs : Filesystem) (filename : String) : Except AppError Response :=
  match validateFilename (viewStripped filename) with
  | .error e => .error e
  | .ok _ =>
    match canonicalize fs (viewTarget filename) with
    | none =>
      .error (.NotFound ("Client attempted to access a file that does not exist: " ++
        rsDisplay (viewTarget filename)))
    | some resolvedPath =>
      match canonicalize fs uploadsRootPath with
      | none => .error (.Unknown "Failed to canonicalize base path")
      | some basePath =>
        if basePath.isPrefixOf resolvedPath then
          .ok (buildResponse none [] (some (.File (absDisplay resolvedPath))))
        else
          .error (.NotPermitted
            ("Client attempted to access a path outside the uploads directory: " ++
              absDisplay resolvedPath))

/-- The lexical containment check of `upload_file` compares against the
path `"uploads/"`. -/
def uploadsBaseCheck : RsPath := parsePath "uploads/"

/-- The path `upload_file` saves to: `Path::new("uploads").join(name)`
(also the path `FileManager::save_file` writes). -/
def uploadTarget (name : String) : RsPath := RsPath.join uploadsRootPath (parsePath name)

/-- `RequestHandler::upload_file`.  The successful result carries the path
the file is saved at (the disk write itself is outside the model). -/
def uploadFile (requestBody : RequestBody) : Except AppError (RsPath × Response) :=
  match requestBody with
  | .Empty => .error (.Invalid ("Request body is not multipart: " ++ RequestBody.display .Empty))
  | .Multipart uploadedFile =>
    match validateFilename uploadedFile.name with
    | .error e => .error e
    | .ok _ =>
      let path := uploadTarget uploadedFile.name
      let resolvedPath := resolveTraversals path
      if rsStartsWith resolvedPath uploadsBaseCheck then
        .ok (path, buildResponse (some .SeeOther) [("Location", "/")] (some .Empty))
      else
        .error (.NotPermitted "Client attempted to access a path outside the uploads directory")

/-! ## Error handling (`ErrorHandler`) -/

/-- The two log severities used by the error mapper (`warn!` / `log_error!`). -/
inductive LogLevel where
  | warning
  | errorLog
deriving DecidableEq, Repr

def handleBadRequest : Response :=
  buildResponse (some .NotFound) [] (some (.Text Templates.BAD_REQUEST))

def handleAccessDenied : Response :=
  buildResponse (some .Forbidden) [] (some (.Text Templates.ACCESS_DENIED))

def handleInvalidFileRequest : Response :=
  buildResponse (some .NotFound) [] (some (.Text Templates.FILE_NOT_FOUND))

def handleServerError : Response :=
  buildResponse (some .ServerError) [] (some (.Text Templates.SERVER_ERROR))

/-- `ErrorHandler::map_error_to_handler`, with the log call modelled as the
returned `LogLevel`. -/
def mapErrorToHandler : AppError → Response × LogLevel
  | .Invalid _ => (handleBadRequest, .warning)
  | .NotFound _ => (handleInvalidFileRequest, .warning)
  | .NotPermitted _ => (handleAccessDenied, .warning)
  | .ioError _ => (handleServerError, .errorLog)
  | .Unknown _ => (handleServerError, .errorLog)

/-! ## Concrete fixtures used by witnesses and counterexamples -/

/-- A filesystem in which nothing exists. -/
def fsNone : Filesystem := ⟨["srv"], fun _ => false⟩

/-- A filesystem containing only `/srv` and `/srv/uploads`. -/
def fsDemo : Filesystem := ⟨["srv"], fun l => l == ["srv"] || l == ["srv", "uploads"]⟩

/-- A file store holding one file `uploads/a.txt` with content `hi`. -/
def storeDemo : FileStore := ⟨fun p => if p = "uploads/a.txt" then some "hi".data else none⟩

/-! ## Helper lemmas -/

theorem methodTryFrom_error_invalid (m : String) (e : AppError)
    (h : methodTryFrom m = .error e) : e.kind = .invalidK := by
  unfold methodTryFrom at h
  split at h <;> simp_all
  subst h
  rfl

/-! ## C3: shared filename validation -/

/-- C3: shared validation (used by both view and upload) succeeds exactly
when the base file name exists (every string is valid UTF-8 in the model),
is non-empty, and the extension is in the allow-list {txt, png, jpg, pdf};
"x.exe" is Invalid while "x.txt", "x.png", "x.jpg", "x.pdf" are accepted. -/
theorem validate_filename_spec :
    (∀ p : String, validateFilename p = .ok () ↔
      ((∃ b, fileName (parsePath p) = some b ∧ b ≠ "") ∧
       ∃ e, extOf (parsePath p) = some e ∧ e ∈ allowedExtensions)) ∧
    errorKindOf (validateFilename "x.exe") = some ErrKind.invalidK ∧
    validateFilename "x.txt" = .ok () ∧
    validateFilename "x.png" = .ok () ∧
    validateFilename "x.jpg" = .ok () ∧
    validateFilename "x.pdf" = .ok () := by
  refine ⟨?_, by decide, by decide, by decide, by decide, by decide⟩
  intro p
  cases hfn : fileName (parsePath p) with
  | none => simp [validateFilename, hfn, extOf]
  | some b =>
    by_cases hb : b = ""
    · subst hb
      simp [validateFilename, hfn]
    · cases hex : extOfName b.data with
      | none => simp [validateFilename, hfn, hb, extOf, hex]
      | some e =>
        by_cases hel : e ∈ allowedExtensions
        · simp [validateFilename, hfn, hb, extOf, hex, hel, List.elem_iff]
        · simp [validateFilename, hfn, hb, extOf, hex, hel, List.elem_iff]

/-! ## C4: the error-to-response mapper -/

/-- C4: the mapper is total on the five error kinds: ioError → 500
server-error page logged as error; Invalid → 404-class bad-request page
logged as warning; NotFound → 404 logged as warning; NotPermitted → 403
logged as warning; Unknown → 500 logged as error — so every error kind
yields a well-formed response. -/
theorem map_error_total (m : String) :
    mapErrorToHandler (.ioError m) = (handleServerError, .errorLog) ∧
    handleServerError.status.getStatusCode = 500 ∧
    handleServerError.body = .Text Templates.SERVER_ERROR ∧
    mapErrorToHandler (.Invalid m) = (handleBadRequest, .warning) ∧
    handleBadRequest.status.getStatusCode = 404 ∧
    handleBadRequest.body = .Text Templates.BAD_REQUEST ∧
    mapErrorToHandler (.NotFound m) = (handleInvalidFileRequest, .warning) ∧
    handleInvalidFileRequest.status.getStatusCode = 404 ∧
    handleInvalidFileRequest.body = .Text Templates.FILE_NOT_FOUND ∧
    mapErrorToHandler (.NotPermitted m) = (handleAccessDenied, .warning) ∧
    handleAccessDenied.status.getStatusCode = 403 ∧
    handleAccessDenied.body = .Text Templates.ACCESS_DENIED ∧
    mapErrorToHandler (.Unknown m) = (handleServerError, .errorLog) :=
  ⟨rfl, by decide, by decide, rfl, by decide, by decide, rfl, by decide, by decide,
    rfl, by decide, by decide, rfl⟩

/-! ## C5 (corrected): empty-body cases of `extract_body` -/

/-- C5 counterexample: a request whose Content-Type header is absent can
still fail (with Invalid) when its Content-Length header is present but
malformed, contradicting "returns Empty — never an error — whenever ...
the Content-Type header is absent". -/
theorem extract_body_malformed_cl_counterexample :
    hGet [("Content-Length", "abc")] "Content-Type" = none ∧
    extractBody [] [("Content-Length", "abc")] =
      .error (.Invalid "Content-Length request header is not a number") := by
  decide

/-- C5 (amended): body extraction returns Empty when Content-Length is
absent, when it parses to 0, or when it parses successfully and
Content-Type is absent; and a Multipart body is produced only when
Content-Length parses to a positive number and Content-Type is present
(a malformed Content-Length is instead rejected as Invalid, see C10). -/
theorem extract_body_empty_cases (stream : List Char) (headers : Headers) :
    (hGet headers "Content-Length" = none → extractBody stream headers = .ok .Empty) ∧
    (∀ v, hGet headers "Content-Length" = some v → parseUsize v = some 0 →
      extractBody stream headers = .ok .Empty) ∧
    (∀ v n, hGet headers "Content-Length" = some v → parseUsize v = some n →
      hGet headers "Content-Type" = none → extractBody stream headers = .ok .Empty) ∧
    (∀ f, extractBody stream headers = .ok (.Multipart f) →
      ∃ v n t, hGet headers "Content-Length" = some v ∧ parseUsize v = some n ∧
        0 < n ∧ hGet headers "Content-Type" = some t) := by
  refine ⟨?_, ?_, ?_, ?_⟩
  · intro h
    unfold extractBody
    rw [h]
    rfl
  · intro v hv hp
    simp only [extractBody, hv, hp]
    rfl
  · intro v n hv hp hct
    simp only [extractBody, hv, hp]
    unfold extractBodyAux
    rw [hct]
    simp
  · intro f h
    cases hcl : hGet headers "Content-Length" with
    | none =>
      unfold extractBody at h
      rw [hcl] at h
      exact absurd h (by intro hh; exact RequestBody.noConfusion (Except.ok.inj hh))
    | some v =>
      cases hp : parseUsize v with
      | none =>
        simp only [extractBody, hcl, hp] at h
        exact Except.noConfusion h
      | some n =>
        simp only [extractBody, hcl, hp] at h
        cases hct : hGet headers "Content-Type" with
        | none =>
          unfold extractBodyAux at h
          rw [hct] at h
          simp at h
        | some t =>
          by_cases hn : n = 0
          · subst hn
            unfold extractBodyAux at h
            simp at h
          · exact ⟨v, n, t, rfl, hp, Nat.pos_of_ne_zero hn, rfl⟩

/-- C5 witness: a request with no headers at all extracts an Empty body. -/
theorem extract_body_empty_cases_witness :
    extractBody [] [] = .ok .Empty :=
  (extract_body_empty_cases [] []).1 rfl

/-! ## C6: the 50 MiB multipart cap -/

/-- C6: when the declared content length exceeds 50 MiB, multipart
extraction fails with Invalid and the stream is untouched (no byte of
file content is read). -/
theorem multipart_size_cap (contentType : String) (contentLength : Nat) (stream : List Char)
    (h : contentLength > maxFileSize) :
    multipartExtract contentType contentLength stream =
      (.error (.Invalid "File size exceeds 50MB limit"), stream) := by
  unfold multipartExtract
  rw [if_pos h]

/-- C6 witness: one byte over the cap is rejected with the stream intact. -/
theorem multipart_size_cap_witness :
    multipartExtract "multipart/form-data; boundary=X" 52428801 ['h', 'i'] =
      (.error (.Invalid "File size exceeds 50MB limit"), ['h', 'i']) :=
  multipart_size_cap "multipart/form-data; boundary=X" 52428801 ['h', 'i'] (by decide)

/-! ## C7: the request-line parser -/

/-- C7: a request line with three (or more) whitespace-separated tokens
whose first token is a known method parses to exactly (method, path,
version); fewer than three tokens is Invalid; an unknown method token is
Invalid. -/
theorem request_line_spec :
    (∀ line m p v rest meth, splitWhitespace line = m :: p :: v :: rest →
      methodTryFrom m = .ok meth → extractRequestLine line = .ok (meth, p, v)) ∧
    (∀ line, (splitWhitespace line).length < 3 →
      errorKindOf (extractRequestLine line) = some ErrKind.invalidK) ∧
    (∀ line m rest e, splitWhitespace line = m :: rest → methodTryFrom m = .error e →
      extractRequestLine line = .error e) := by
  refine ⟨?_, ?_, ?_⟩
  · intro line m p v rest meth hsp hm
    cases rest <;> simp [extractRequestLine, hsp, hm]
  · intro line hlen
    match hsp : splitWhitespace line with
    | [] => simp [extractRequestLine, hsp, errorKindOf, AppError.kind]
    | [m] =>
      cases hm : methodTryFrom m with
      | error e =>
        simp [extractRequestLine, hsp, hm, errorKindOf, methodTryFrom_error_invalid m e hm]
      | ok meth => simp [extractRequestLine, hsp, hm, errorKindOf, AppError.kind]
    | [m, p] =>
      cases hm : methodTryFrom m with
      | error e =>
        simp [extractRequestLine, hsp, hm, errorKindOf, methodTryFrom_error_invalid m e hm]
      | ok meth => simp [extractRequestLine, hsp, hm, errorKindOf, AppError.kind]
    | m :: p :: v :: rest =>
      rw [hsp] at hlen
      simp only [List.length_cons] at hlen
      omega
  · intro line m rest e hsp hm
    match rest with
    | [] => simp [extractRequestLine, hsp, hm]
    | [p] => simp [extractRequestLine, hsp, hm]
    | p :: v :: more => simp [extractRequestLine, hsp, hm]

/-- C7 witness: a concrete well-formed request line. -/
theorem request_line_spec_witness :
    extractRequestLine "GET /home HTTP/1.1" = .ok (.Get, "/home", "HTTP/1.1") :=
  request_line_spec.1 "GET /home HTTP/1.1" "GET" "/home" "HTTP/1.1" [] .Get
    (by decide) (by decide)

/-! ## C10: malformed Content-Length -/

/-- C10: a present but unparsable Content-Length makes body extraction
fail with Invalid, regardless of the other headers or the stream. -/
theorem malformed_content_length_invalid (stream : List Char) (headers : Headers) (v : String)
    (h1 : hGet headers "Content-Length" = some v) (h2 : parseUsize v = none) :
    extractBody stream headers =
      .error (.Invalid "Content-Length request header is not a number") := by
  rw [extractBody]
  simp [h1, h2]

/-- C10 witness: Content-Length "5x" with no Content-Type is Invalid. -/
theorem malformed_content_length_invalid_witness :
    extractBody [] [("Content-Length", "5x")] =
      .error (.Invalid "Content-Length request header is not a number") :=
  malformed_content_length_invalid [] [("Content-Length", "5x")] "5x" (by decide) (by decide)

/-! ## C8 (corrected): header-name canonicalization -/

theorem charToNat_ofNat (n : Nat) (h : n < 55296) : (Char.ofNat n).toNat = n := by
  have hv : n.isValidChar := Or.inl h
  simp [Char.ofNat, hv, Char.ofNatAux, Char.toNat, UInt32.toNat, UInt32.ofNatCore]

theorem charEq_of_toNat (a b : Char) (h : a.toNat = b.toNat) : a = b :=
  Char.ext (UInt32.ext h)

theorem asciiUpper_congr (a b : Char) (h : asciiLower a = asciiLower b) :
    asciiUpper a = asciiUpper b := by
  unfold asciiLower at h
  unfold asciiUpper
  by_cases ha : 65 ≤ a.toNat ∧ a.toNat ≤ 90
  · by_cases hb : 65 ≤ b.toNat ∧ b.toNat ≤ 90
    · rw [if_pos ha, if_pos hb] at h
      have h2 : a.toNat + 32 = b.toNat + 32 := by
        have h1 := congrArg Char.toNat h
        rw [charToNat_ofNat _ (by omega), charToNat_ofNat _ (by omega)] at h1
        exact h1
      rw [charEq_of_toNat a b (by omega)]
    · rw [if_pos ha, if_neg hb] at h
      have hbv : b.toNat = a.toNat + 32 := by
        have h1 := congrArg Char.toNat h
        rw [charToNat_ofNat _ (by omega)] at h1
        omega
      rw [if_neg (by omega), if_pos (by omega)]
      rw [show b.toNat - 32 = a.toNat by omega, Char.ofNat_toNat]
  · by_cases hb : 65 ≤ b.toNat ∧ b.toNat ≤ 90
    · rw [if_neg ha, if_pos hb] at h
      have hav : a.toNat = b.toNat + 32 := by
        have h1 := congrArg Char.toNat h
        rw [charToNat_ofNat _ (by omega)] at h1
        omega
      rw [if_pos (by omega), if_neg (by omega)]
      rw [show a.toNat - 32 = b.toNat by omega, Char.ofNat_toNat]
    · rw [if_neg ha, if_neg hb] at h
      rw [h]

theorem capitalizeFirst_congr (a b : List Char) (h : lowerFirst a = lowerFirst b) :
    capitalizeFirst a = capitalizeFirst b := by
  cases a with
  | nil =>
    cases b with
    | nil => rfl
    | cons c t => exact absurd h (by simp [lowerFirst])
  | cons c t =>
    cases b with
    | nil => exact absurd h (by simp [lowerFirst])
    | cons d u =>
      simp only [lowerFirst, List.cons.injEq] at h
      simp only [capitalizeFirst, List.cons.injEq]
      exact ⟨asciiUpper_congr c d h.1, h.2⟩

theorem segsAgree_map (u v : List (List Char)) (h : segsAgree u v = true) :
    u.map (fun w => String.mk (capitalizeFirst w)) =
      v.map (fun w => String.mk (capitalizeFirst w)) := by
  induction u generalizing v with
  | nil =>
    cases v with
    | nil => rfl
    | cons b bs => exact absurd h (by simp [segsAgree])
  | cons a moreA ih =>
    cases v with
    | nil => exact absurd h (by simp [segsAgree])
    | cons b moreB =>
      simp only [segsAgree, Bool.and_eq_true, beq_iff_eq] at h
      simp only [List.map_cons, List.cons.injEq]
      exact ⟨congrArg String.mk (capitalizeFirst_congr a b h.1), ih moreB h.2⟩

/-- C8 counterexample: `CONTENT-LENGTH` and `content-length` are two
casings of the same header name, yet they canonicalize to different keys,
and the resulting header maps make body extraction diverge. -/
theorem header_casing_counterexample :
    toHeaderCase "CONTENT-LENGTH" = "CONTENT-LENGTH" ∧
    toHeaderCase "content-length" = "Content-Length" ∧
    ("CONTENT-LENGTH" : String) ≠ "Content-Length" ∧
    extractHeaders ["CONTENT-LENGTH: 27\r\n", "Content-Type: multipart/form-data; boundary=X\r\n",
        "\r\n"] [] =
      .ok [("CONTENT-LENGTH", "27"), ("Content-Type", "multipart/form-data; boundary=X")] ∧
    extractBody [] [("CONTENT-LENGTH", "27"), ("Content-Type", "multipart/form-data; boundary=X")] =
      .ok .Empty ∧
    extractBody [] [("Content-Length", "27"), ("Content-Type", "multipart/form-data; boundary=X")] =
      .error (.Invalid "Failed to read form data") := by
  set_option maxRecDepth 8192 in decide

/-- C8 (amended): canonicalization capitalizes the first character of each
`-`-separated segment and leaves the rest of the segment unchanged, so any
two names agreeing up to the case of each segment's first character get the
same key — in particular `content-length: 5` and `Content-Length: 5`
produce identical header maps — but arbitrary casings do not collide. -/
theorem header_case_amended :
    (∀ s t : String, segsAgree (splitOnChar '-' s.data) (splitOnChar '-' t.data) = true →
      toHeaderCase s = toHeaderCase t) ∧
    extractHeaders ["content-length: 5\r\n", "\r\n"] [] = .ok [("Content-Length", "5")] ∧
    extractHeaders ["Content-Length: 5\r\n", "\r\n"] [] = .ok [("Content-Length", "5")] ∧
    extractBody [] [("Content-Length", "5")] = .ok .Empty := by
  refine ⟨?_, by decide, by decide, by decide⟩
  intro s t h
  unfold toHeaderCase
  rw [segsAgree_map _ _ h]

/-- C8 witness: the two concrete casings from the spec get the same key. -/
theorem header_case_amended_witness :
    toHeaderCase "content-length" = toHeaderCase "Content-Length" :=
  header_case_amended.1 "content-length" "Content-Length" (by decide)

/-! ## C2 (corrected): lexical containment on upload -/

/-- C2 counterexample: for the filename "../x" the lexical normalization
of the joined path does not start with `uploads/`, yet the upload fails
with Invalid (filename validation), not NotPermitted as the claim states. -/
theorem upload_escape_invalid_counterexample :
    uploadFile (.Multipart ⟨"../x", []⟩) =
      .error (.Invalid "Filename has an unsupported extension: ../x") ∧
    rsStartsWith (resolveTraversals (uploadTarget "../x")) uploadsBaseCheck = false := by
  decide

/-- C2 (amended): for every uploaded filename that passes the shared
filename validation, the upload fails with NotPermitted exactly when the
lexical normalization (drop `.`, pop on `..`) of `uploads/<name>` does not
start with `uploads/`; when the check passes the file is saved at
`uploads/<name>` and a see-other redirect is returned.  Every successful
upload's save path normalizes to within `uploads/`. -/
theorem upload_lexical_containment (name : String) (content : List Char)
    (hval : validateFilename name = .ok ()) :
    (rsStartsWith (resolveTraversals (uploadTarget name)) uploadsBaseCheck = false →
      uploadFile (.Multipart ⟨name, content⟩) =
        .error (.NotPermitted "Client attempted to access a path outside the uploads directory")) ∧
    (rsStartsWith (resolveTraversals (uploadTarget name)) uploadsBaseCheck = true →
      uploadFile (.Multipart ⟨name, content⟩) =
        .ok (uploadTarget name,
          buildResponse (some .SeeOther) [("Location", "/")] (some .Empty))) ∧
    (∀ body savedPath resp, uploadFile body = .ok (savedPath, resp) →
      rsStartsWith (resolveTraversals savedPath) uploadsBaseCheck = true) := by
  refine ⟨?_, ?_, ?_⟩
  · intro hchk
    simp only [uploadFile, hval, hchk]
    rfl
  · intro hchk
    simp only [uploadFile, hval, hchk]
    rfl
  · intro body savedPath resp h
    cases body with
    | Empty => exact Except.noConfusion h
    | Multipart f =>
      cases hv2 : validateFilename f.name with
      | error e =>
        simp only [uploadFile, hv2] at h
        exact Except.noConfusion h
      | ok u =>
        simp only [uploadFile, hv2] at h
        by_cases hc : rsStartsWith (resolveTraversals (uploadTarget f.name)) uploadsBaseCheck = true
        · rw [if_pos hc] at h
          have h2 := (Prod.mk.injEq ..).mp (Except.ok.inj h)
          rw [← h2.1]
          exact hc
        · rw [if_neg hc] at h
          exact Except.noConfusion h

/-- C2 witness: a plain valid filename is accepted and saved at
`uploads/x.txt`. -/
theorem upload_lexical_containment_witness :
    uploadFile (.Multipart ⟨"x.txt", []⟩) =
      .ok (uploadTarget "x.txt",
        buildResponse (some .SeeOther) [("Location", "/")] (some .Empty)) :=
  (upload_lexical_containment "x.txt" [] (by decide)).2.1 (by decide)

/-! ## C1 (corrected): path containment on view -/

/-- C1 counterexample: both spec examples fail with Invalid (the base name
`passwd` has no allowed extension), not with NotPermitted or NotFound. -/
theorem view_examples_invalid_counterexample :
    errorKindOf (viewFile fsNone "../../etc/passwd") = some ErrKind.invalidK ∧
    errorKindOf (viewFile fsNone "/uploads/../../etc/passwd") = some ErrKind.invalidK ∧
    ErrKind.invalidK ≠ ErrKind.notFoundK ∧
    ErrKind.invalidK ≠ ErrKind.notPermittedK := by
  decide

/-- C1 (amended): a successful view always resolves inside the
canonicalized uploads root; for every client path passing filename
validation, a canonicalization failure yields NotFound, and a
canonicalized path that does not start with the canonicalized uploads root
yields NotPermitted (paths failing validation, such as the two spec
examples, fail earlier with Invalid). -/
theorem view_path_containment (fs : Filesystem) (filename : String) :
    (∀ resp, viewFile fs filename = .ok resp →
      ∃ resolved base, canonicalize fs uploadsRootPath = some base ∧
        resp.body = ResponseBody.File (absDisplay resolved) ∧
        base.isPrefixOf resolved = true) ∧
    (validateFilename (viewStripped filename) = .ok () →
      (canonicalize fs (viewTarget filename) = none →
        errorKindOf (viewFile fs filename) = some ErrKind.notFoundK) ∧
      (∀ resolved base, canonicalize fs (viewTarget filename) = some resolved →
        canonicalize fs uploadsRootPath = some base →
        base.isPrefixOf resolved = false →
        errorKindOf (viewFile fs filename) = some ErrKind.notPermittedK)) := by
  constructor
  · intro resp h
    cases hval : validateFilename (viewStripped filename) with
    | error e =>
      simp only [viewFile, hval] at h
      exact Except.noConfusion h
    | ok u =>
      simp only [viewFile, hval] at h
      cases hcan : canonicalize fs (viewTarget filename) with
      | none =>
        simp only [hcan] at h
        exact Except.noConfusion h
      | some resolved =>
        simp only [hcan] at h
        cases hbase : canonicalize fs uploadsRootPath with
        | none =>
          simp only [hbase] at h
          exact Except.noConfusion h
        | some base =>
          simp only [hbase] at h
          by_cases hpre : base.isPrefixOf resolved = true
          · rw [if_pos hpre] at h
            rw [← Except.ok.inj h]
            exact ⟨resolved, base, rfl, rfl, hpre⟩
          · rw [if_neg hpre] at h
            exact Except.noConfusion h
  · intro hval
    constructor
    · intro hcan
      simp only [viewFile, hval, hcan]
      rfl
    · intro resolved base hcan hbase hpre
      simp only [viewFile, hval, hcan, hbase]
      rw [if_neg (by rw [hpre]; exact Bool.false_ne_true)]
      rfl

/-- C1 witness: with only `/srv` and `/srv/uploads` existing, viewing
`/uploads/x.txt` passes validation and fails canonicalization, so the
result is NotFound. -/
theorem view_path_containment_witness :
    errorKindOf (viewFile fsDemo "/uploads/x.txt") = some ErrKind.notFoundK :=
  ((view_path_containment fsDemo "/uploads/x.txt").2 (by decide)).1 (by decide)

/-! ## C9: serialization round-trip -/

theorem decDigitChar_ne_cr (n : Nat) : decDigitChar n ≠ '\r' := by
  unfold decDigitChar
  repeat first
  | decide
  | split

theorem natReprLoop_ne_cr (fuel : Nat) : ∀ (n : Nat) (acc : List Char),
    (∀ c ∈ acc, c ≠ '\r') → ∀ c ∈ natReprLoop fuel n acc, c ≠ '\r' := by
  induction fuel with
  | zero => intro n acc h; exact h
  | succ f ih =>
    intro n acc h
    have h2 : ∀ c ∈ decDigitChar (n % 10) :: acc, c ≠ '\r' := by
      intro c hc
      rcases List.mem_cons.mp hc with hc1 | hc2
      · rw [hc1]; exact decDigitChar_ne_cr (n % 10)
      · exact h c hc2
    unfold natReprLoop
    split
    · exact h2
    · exact ih (n / 10) _ h2

theorem natRepr_ne_cr (n : Nat) : ∀ c ∈ (natRepr n).data, c ≠ '\r' :=
  natReprLoop_ne_cr (n + 1) n [] (by simp)

theorem afterBlankLine_skip (a r : List Char) (h : ∀ c ∈ a, c ≠ '\r') :
    afterBlankLine (a ++ r) = afterBlankLine r := by
  induction a with
  | nil => rfl
  | cons c t ih =>
    have hc : c ≠ '\r' := h c (by simp)
    rw [List.cons_append]
    simp only [afterBlankLine]
    rw [if_neg (fun hand => hc hand.1)]
    exact ih (fun x hx => h x (by simp [hx]))

theorem afterBlankLine_crlf (c : Char) (r : List Char) (hc : c ≠ '\r') :
    afterBlankLine ('\r' :: '\n' :: c :: r) = afterBlankLine (c :: r) := by
  have hcond : ¬('\r' = '\r' ∧ ('\n' :: c :: r).take 3 = ['\n', '\r', '\n']) := by
    intro hand
    have h3 := hand.2
    rw [List.take_succ_cons, List.take_succ_cons] at h3
    exact hc (List.cons.inj (List.cons.inj h3).2).1
  have hcond2 : ¬('\n' = '\r' ∧ (c :: r).take 3 = ['\n', '\r', '\n']) :=
    fun hand => absurd hand.1 (by decide)
  show (if '\r' = '\r' ∧ ('\n' :: c :: r).take 3 = ['\n', '\r', '\n']
    then some (('\n' :: c :: r).drop 3) else afterBlankLine ('\n' :: c :: r)) =
      afterBlankLine (c :: r)
  rw [if_neg hcond]
  show (if '\n' = '\r' ∧ (c :: r).take 3 = ['\n', '\r', '\n']
    then some ((c :: r).drop 3) else afterBlankLine (c :: r)) = afterBlankLine (c :: r)
  rw [if_neg hcond2]

theorem afterBlankLine_found (r : List Char) :
    afterBlankLine ('\r' :: '\n' :: '\r' :: '\n' :: r) = some r := by
  show (if '\r' = '\r' ∧ ('\n' :: '\r' :: '\n' :: r).take 3 = ['\n', '\r', '\n']
    then some (('\n' :: '\r' :: '\n' :: r).drop 3)
    else afterBlankLine ('\n' :: '\r' :: '\n' :: r)) = some r
  rw [if_pos ⟨rfl, by rw [List.take_succ_cons, List.take_succ_cons, List.take_succ_cons,
    List.take_zero]⟩]
  rfl

theorem afterBlankLine_wire (ds B : List Char) (hd : ∀ c ∈ ds, c ≠ '\r') :
    afterBlankLine ("HTTP/1.1 200 OK".data ++ ('\r' :: '\n' ::
      ("Content-Length: ".data ++ (ds ++ ('\r' :: '\n' ::
        ("Content-Type: text/plain".data ++ ('\r' :: '\n' ::
          ("Content-Disposition: inline; filename=\"a.txt\"".data ++
            ('\r' :: '\n' :: '\r' :: '\n' :: B))))))))) = some B := by
  rw [afterBlankLine_skip "HTTP/1.1 200 OK".data _ (by decide)]
  show afterBlankLine ('\r' :: '\n' :: 'C' ::
    ("ontent-Length: ".data ++ (ds ++ ('\r' :: '\n' ::
      ("Content-Type: text/plain".data ++ ('\r' :: '\n' ::
        ("Content-Disposition: inline; filename=\"a.txt\"".data ++
          ('\r' :: '\n' :: '\r' :: '\n' :: B)))))))) = some B
  rw [afterBlankLine_crlf 'C' _ (by decide)]
  show afterBlankLine ("Content-Length: ".data ++ (ds ++ ('\r' :: '\n' ::
    ("Content-Type: text/plain".data ++ ('\r' :: '\n' ::
      ("Content-Disposition: inline; filename=\"a.txt\"".data ++
        ('\r' :: '\n' :: '\r' :: '\n' :: B))))))) = some B
  rw [afterBlankLine_skip "Content-Length: ".data _ (by decide)]
  rw [afterBlankLine_skip ds _ hd]
  show afterBlankLine ('\r' :: '\n' :: 'C' ::
    ("ontent-Type: text/plain".data ++ ('\r' :: '\n' ::
      ("Content-Disposition: inline; filename=\"a.txt\"".data ++
        ('\r' :: '\n' :: '\r' :: '\n' :: B))))) = some B
  rw [afterBlankLine_crlf 'C' _ (by decide)]
  show afterBlankLine ("Content-Type: text/plain".data ++ ('\r' :: '\n' ::
    ("Content-Disposition: inline; filename=\"a.txt\"".data ++
      ('\r' :: '\n' :: '\r' :: '\n' :: B)))) = some B
  rw [afterBlankLine_skip "Content-Type: text/plain".data _ (by decide)]
  show afterBlankLine ('\r' :: '\n' :: 'C' ::
    ("ontent-Disposition: inline; filename=\"a.txt\"".data ++
      ('\r' :: '\n' :: '\r' :: '\n' :: B))) = some B
  rw [afterBlankLine_crlf 'C' _ (by decide)]
  show afterBlankLine ("Content-Disposition: inline; filename=\"a.txt\"".data ++
    ('\r' :: '\n' :: '\r' :: '\n' :: B)) = some B
  rw [afterBlankLine_skip "Content-Disposition: inline; filename=\"a.txt\"".data _ (by decide)]
  exact afterBlankLine_found B

/-- C9: serializing a BufferedFile named `a.txt` with content bytes B as a
`File` response body produces a wire message whose body section is exactly
B, with `Content-Length` equal to B's byte count; extracting the bytes
after the first blank line recovers B. -/
theorem serialize_roundtrip (store : FileStore) (path : String) (B : List Char)
    (h1 : store.readFile path = some B)
    (h2 : fileName (parsePath path) = some "a.txt") :
    toBytes store (buildResponse none [] (some (.File path))) =
      .ok ("HTTP/1.1 200 OK\r\nContent-Length: ".data ++ ((natRepr B.length).data ++
        (("\r\nContent-Type: text/plain\r\nContent-Disposition: inline; filename=\"a.txt\"\r\n\r\n").data
          ++ B))) ∧
    afterBlankLine ("HTTP/1.1 200 OK\r\nContent-Length: ".data ++ ((natRepr B.length).data ++
        (("\r\nContent-Type: text/plain\r\nContent-Disposition: inline; filename=\"a.txt\"\r\n\r\n").data
          ++ B))) = some B := by
  have hb : bufferedFileFromPath store path = .ok ⟨"a.txt", B⟩ := by
    simp only [bufferedFileFromPath, h1, h2]
  have hr : responseBodyToFile store (ResponseBody.File path) = .ok (some ⟨"a.txt", B⟩) := by
    simp only [responseBodyToFile, hb]
  constructor
  · simp only [toBytes, buildResponse, Option.getD_some]
    rw [hr]
    rfl
  · exact afterBlankLine_wire (natRepr B.length).data B (natRepr_ne_cr B.length)

/-- C9 witness: serving the stored file `uploads/a.txt` (content `hi`)
round-trips the content through the wire format. -/
theorem serialize_roundtrip_witness :
    toBytes storeDemo (buildResponse none [] (some (.File "uploads/a.txt"))) =
      .ok ("HTTP/1.1 200 OK\r\nContent-Length: ".data ++ ((natRepr "hi".data.length).data ++
        (("\r\nContent-Type: text/plain\r\nContent-Disposition: inline; filename=\"a.txt\"\r\n\r\n").data
          ++ "hi".data))) ∧
    afterBlankLine ("HTTP/1.1 200 OK\r\nContent-Length: ".data ++ ((natRepr "hi".data.length).data ++
        (("\r\nContent-Type: text/plain\r\nContent-Disposition: inline; filename=\"a.txt\"\r\n\r\n").data
          ++ "hi".data))) = some "hi".data :=
  serialize_roundtrip storeDemo "uploads/a.txt" "hi".data (by decide) (by decide)
